import Mathlib

/-!
# RevShare DEX escrow service: a shallow embedding

This file embeds the escrow/distribution core of the RevShare repository
(`DEXEscrowService` in `src/lib/services/dex-escrow.ts` and the claims API
route) into Lean, and proves or refutes the specification claims about it.

Monetary amounts and percentages (JS `number`) are modelled as rationals
(`ℚ`); timestamps as integers (`Int`); database ids as naturals allocated
by a counter.  Database rows live in lists inside an explicit
`EscrowState`; every Prisma transaction becomes a pure function from state
to state (returning `Except` for the operations that can throw).  The
audit-log rows written by the service carry no data any claim refers to
and are not modelled.  Note that in `ℚ` division by zero yields `0`
(whereas JS yields `Infinity`); no theorem below relies on a division by
zero ever being evaluated.
-/

namespace RevShare

inductive VaultStatus where
  | ACTIVE | PAUSED | CLOSED | DISPUTED
  deriving DecidableEq, Repr

inductive DepositStatus where
  | PENDING | VERIFIED | DISTRIBUTED
  deriving DecidableEq, Repr

inductive ClaimStatus where
  | AVAILABLE | CLAIMED | EXPIRED
  deriving DecidableEq, Repr

inductive ClaimantType where
  | CREATOR | INVESTOR
  deriving DecidableEq, Repr

/-- A CONFIRMED investment row, as read by `getOwnershipSnapshot`. -/
structure Investment where
  investorId : String
  shares : Int
  deriving DecidableEq, Repr

/-- The offering data the service reads: `totalShares`, `availableShares`,
`sharePercentage`, the channel owner, and the CONFIRMED investments. -/
structure Offering where
  creatorId : String
  totalShares : Int
  availableShares : Int
  sharePercentage : ℚ
  confirmedInvestments : List Investment
  deriving DecidableEq, Repr

structure InvestorStake where
  userId : String
  shares : Int
  ownershipPercent : ℚ
  deriving DecidableEq, Repr

structure CreatorStake where
  userId : String
  ownershipPercent : ℚ
  deriving DecidableEq, Repr

structure OwnershipSnapshot where
  creator : CreatorStake
  investors : List InvestorStake
  totalShares : Int
  soldShares : Int
  deriving DecidableEq, Repr

/-- The escrow vault row. -/
structure Vault where
  totalBalance : ℚ
  pendingRelease : ℚ
  totalDistributed : ℚ
  creatorShare : ℚ
  investorPool : ℚ
  status : VaultStatus
  deriving DecidableEq, Repr

structure Deposit where
  id : Nat
  amount : ℚ
  status : DepositStatus
  deriving DecidableEq, Repr

structure Claim where
  id : Nat
  userId : String
  claimantType : ClaimantType
  amount : ℚ
  ownershipPercent : ℚ
  status : ClaimStatus
  expiresAt : Option Int
  deriving DecidableEq, Repr

/-- The fields of an `escrowDistribution` row that the claims refer to. -/
structure Distribution where
  totalAmount : ℚ
  creatorAmount : ℚ
  investorAmount : ℚ
  platformFee : ℚ
  deriving DecidableEq, Repr

structure Wallet where
  userId : String
  balance : ℚ
  totalEarnings : ℚ
  deriving DecidableEq, Repr

/-- The persistent state of one offering's escrow: the vault row and its
child rows, plus the user wallets that claims pay into. -/
structure EscrowState where
  vault : Vault
  deposits : List Deposit
  claims : List Claim
  distributions : List Distribution
  wallets : List Wallet
  nextDepositId : Nat
  nextClaimId : Nat
  deriving DecidableEq, Repr

/-- The error conditions thrown by the service (`throw new Error(...)`),
one constructor per distinct message.  `claimIs s` stands for the
interpolated message `Claim is ${status}`. -/
inductive EscrowError where
  | offeringNotFound
  | vaultNotFound
  | vaultNotActive
  | invalidAmount
  | depositNotFound
  | depositNotPending
  | invalidDeposit
  | noFundsAvailable
  | claimNotFound
  | unauthorized
  | claimIs (status : ClaimStatus)
  | claimExpired
  | noAvailableClaims
  deriving DecidableEq, Repr

/-- `PLATFORM_FEE_PERCENT = 5` (5% platform fee). -/
def PLATFORM_FEE_PERCENT : ℚ := 5

/-- `CLAIM_EXPIRY_DAYS = 90`; time is measured in days. -/
def CLAIM_EXPIRY_DAYS : Int := 90

/-- The vault created by `createVault`: all balances zero, status ACTIVE. -/
def initialVault : Vault :=
  { totalBalance := 0, pendingRelease := 0, totalDistributed := 0,
    creatorShare := 0, investorPool := 0, status := .ACTIVE }

/-- The escrow state right after `createVault` on a fresh offering. -/
def initialState : EscrowState :=
  { vault := initialVault, deposits := [], claims := [], distributions := [],
    wallets := [], nextDepositId := 0, nextClaimId := 0 }

/-- Sum of the `ownershipPercent` fields, as the `reduce` on line 164 of
the service computes it. -/
def sumOwnershipPercent (investors : List InvestorStake) : ℚ :=
  investors.foldl (fun sum inv => sum + inv.ownershipPercent) 0

/-- `DEXEscrowService.getOwnershipSnapshot` (lines 129-176): investor
percentages are `shares / soldShares * sharePercentage`; the creator gets
the remainder `100 - Σ investor percent`. -/
def getOwnershipSnapshot (offering : Offering) : OwnershipSnapshot :=
  let totalShares := offering.totalShares
  let soldShares := totalShares - offering.availableShares
  let investors := offering.confirmedInvestments.map (fun investment =>
    { userId := investment.investorId
      shares := investment.shares
      ownershipPercent :=
        ((investment.shares : ℚ) / (soldShares : ℚ)) * offering.sharePercentage
      : InvestorStake })
  let totalInvestorPercent := sumOwnershipPercent investors
  let creatorOwnershipPercent := 100 - totalInvestorPercent
  { creator := { userId := offering.creatorId,
                 ownershipPercent := creatorOwnershipPercent }
    investors := investors
    totalShares := totalShares
    soldShares := soldShares }

/-- `DEXEscrowService.depositRevenue` (lines 182-252): requires an ACTIVE
vault and a positive amount; creates a PENDING deposit and increments
`totalBalance` and `pendingRelease`. -/
def depositRevenue (st : EscrowState) (amount : ℚ) :
    Except EscrowError (EscrowState × Nat) :=
  if st.vault.status ≠ .ACTIVE then .error .vaultNotActive
  else if amount ≤ 0 then .error .invalidAmount
  else
    .ok ({ st with
            deposits := st.deposits ++
              [{ id := st.nextDepositId, amount := amount, status := .PENDING }]
            vault := { st.vault with
              totalBalance := st.vault.totalBalance + amount
              pendingRelease := st.vault.pendingRelease + amount }
            nextDepositId := st.nextDepositId + 1 },
        st.nextDepositId)

def findDeposit (st : EscrowState) (depositId : Nat) : Option Deposit :=
  st.deposits.find? (fun d => d.id == depositId)

/-- `DEXEscrowService.verifyDeposit` (lines 257-290). -/
def verifyDeposit (st : EscrowState) (depositId : Nat) :
    Except EscrowError EscrowState :=
  match findDeposit st depositId with
  | none => .error .depositNotFound
  | some deposit =>
    if deposit.status ≠ .PENDING then .error .depositNotPending
    else .ok { st with deposits := st.deposits.map (fun d =>
        if d.id == depositId then { d with status := .VERIFIED } else d) }

/-- Amount resolution in `distributeRevenue` (lines 312-323): a given
deposit is rejected only when missing or already DISTRIBUTED; otherwise
its amount is used.  Without a deposit the vault's `pendingRelease` is
used. -/
def resolveAmount (st : EscrowState) (depositId : Option Nat) :
    Except EscrowError ℚ :=
  match depositId with
  | none => .ok st.vault.pendingRelease
  | some dId =>
    match findDeposit st dId with
    | none => .error .invalidDeposit
    | some deposit =>
      if deposit.status = .DISTRIBUTED then .error .invalidDeposit
      else .ok deposit.amount

/-- One entry of the `claims` array built by `distributeRevenue`. -/
structure ClaimEntry where
  userId : String
  claimantType : ClaimantType
  amount : ℚ
  ownershipPercent : ℚ
  shares : Option Int
  deriving DecidableEq, Repr

/-- The value returned by `distributeRevenue`. -/
structure DistributionResult where
  totalAmount : ℚ
  creatorAmount : ℚ
  investorAmount : ℚ
  platformFee : ℚ
  claims : List ClaimEntry
  deriving DecidableEq, Repr

/-- The split computation of `distributeRevenue` (lines 330-372):
`platformFee = amount * 5%`, `creatorAmount = distributable * creatorPct/100`,
`investorAmount = distributable - creatorAmount` (line 340), a creator
claim when `creatorAmount > 0`, and one claim per investor with positive
percent, each `distributable * pct/100`. -/
def computeDistribution (offering : Offering) (amountToDistribute : ℚ) :
    DistributionResult :=
  let ownership := getOwnershipSnapshot offering
  let platformFee := amountToDistribute * (PLATFORM_FEE_PERCENT / 100)
  let distributableAmount := amountToDistribute - platformFee
  let creatorAmount :=
    distributableAmount * (ownership.creator.ownershipPercent / 100)
  let investorAmount := distributableAmount - creatorAmount
  let creatorClaims : List ClaimEntry :=
    if 0 < creatorAmount then
      [{ userId := ownership.creator.userId, claimantType := .CREATOR,
         amount := creatorAmount,
         ownershipPercent := ownership.creator.ownershipPercent,
         shares := none }]
    else []
  let investorClaims : List ClaimEntry :=
    (ownership.investors.filter (fun inv => decide (0 < inv.ownershipPercent))).map
      (fun inv =>
        { userId := inv.userId, claimantType := .INVESTOR,
          amount := distributableAmount * (inv.ownershipPercent / 100),
          ownershipPercent := inv.ownershipPercent,
          shares := some inv.shares })
  { totalAmount := amountToDistribute
    creatorAmount := creatorAmount
    investorAmount := investorAmount
    platformFee := platformFee
    claims := creatorClaims ++ investorClaims }

/-- Claim-row creation inside the distribution transaction (lines
391-408): one AVAILABLE row per entry, expiring `CLAIM_EXPIRY_DAYS` after
`now`, with sequentially allocated ids. -/
def mkClaims (nextId : Nat) (expiresAt : Int) : List ClaimEntry → List Claim
  | [] => []
  | entry :: rest =>
    { id := nextId, userId := entry.userId,
      claimantType := entry.claimantType, amount := entry.amount,
      ownershipPercent := entry.ownershipPercent,
      status := .AVAILABLE, expiresAt := some expiresAt } ::
      mkClaims (nextId + 1) expiresAt rest

/-- The state written by the distribution transaction (lines 375-459):
claims rows, the vault update (`pendingRelease -= amount`,
`totalDistributed += amount`, `creatorShare += creatorAmount`,
`investorPool += investorAmount`; `totalBalance` untouched), the deposit
marked DISTRIBUTED when one was given, and the COMPLETED distribution
row. -/
def applyDistribution (st : EscrowState) (offering : Offering)
    (depositId : Option Nat) (now : Int) (amountToDistribute : ℚ) :
    EscrowState :=
  let res := computeDistribution offering amountToDistribute
  { st with
    vault := { st.vault with
      pendingRelease := st.vault.pendingRelease - amountToDistribute
      totalDistributed := st.vault.totalDistributed + amountToDistribute
      creatorShare := st.vault.creatorShare + res.creatorAmount
      investorPool := st.vault.investorPool + res.investorAmount }
    deposits :=
      match depositId with
      | none => st.deposits
      | some dId => st.deposits.map (fun d =>
          if d.id == dId then { d with status := .DISTRIBUTED } else d)
    claims := st.claims ++ mkClaims st.nextClaimId (now + CLAIM_EXPIRY_DAYS) res.claims
    distributions := st.distributions ++
      [{ totalAmount := res.totalAmount, creatorAmount := res.creatorAmount,
         investorAmount := res.investorAmount, platformFee := res.platformFee }]
    nextClaimId := st.nextClaimId + res.claims.length }

/-- `DEXEscrowService.distributeRevenue` (lines 296-469). -/
def distributeRevenue (st : EscrowState) (offering : Offering)
    (depositId : Option Nat) (now : Int) :
    Except EscrowError (EscrowState × DistributionResult) :=
  if st.vault.status ≠ .ACTIVE then .error .vaultNotActive
  else
    match resolveAmount st depositId with
    | .error e => .error e
    | .ok amountToDistribute =>
      if amountToDistribute ≤ 0 then .error .noFundsAvailable
      else .ok (applyDistribution st offering depositId now amountToDistribute,
                computeDistribution offering amountToDistribute)

def findClaim (st : EscrowState) (claimId : Nat) : Option Claim :=
  st.claims.find? (fun c => c.id == claimId)

/-- The expiry predicate shared by the lazy check in `processClaim`
(`new Date() > claim.expiresAt`) and the sweep filter
(`expiresAt < now`): a null expiry never expires. -/
def claimIsExpired (claim : Claim) (now : Int) : Bool :=
  match claim.expiresAt with
  | some t => t < now
  | none => false

def setClaimStatus (claims : List Claim) (claimId : Nat)
    (status : ClaimStatus) : List Claim :=
  claims.map (fun c => if c.id == claimId then { c with status := status } else c)

/-- Wallet get-or-create plus balance/earnings update (lines 510-534). -/
def creditWallet (wallets : List Wallet) (userId : String) (amount : ℚ) :
    List Wallet :=
  match wallets.find? (fun w => w.userId == userId) with
  | some _ => wallets.map (fun w =>
      if w.userId == userId then
        { w with balance := w.balance + amount,
                 totalEarnings := w.totalEarnings + amount }
      else w)
  | none => wallets ++ [{ userId := userId, balance := amount, totalEarnings := amount }]

def walletBalanceOf (wallets : List Wallet) (userId : String) : ℚ :=
  match wallets.find? (fun w => w.userId == userId) with
  | some w => w.balance
  | none => 0

def walletBalance (st : EscrowState) (userId : String) : ℚ :=
  walletBalanceOf st.wallets userId

/-- `DEXEscrowService.processClaim` (lines 474-617).  The lazy-expiry
update (lines 500-506) happens outside the transaction, so that failure
still commits the EXPIRED status; every other failure leaves the state
unchanged.  On success the wallet is credited and `creatorShare` or
`investorPool` plus `totalBalance` are debited. -/
def processClaim (st : EscrowState) (claimId : Nat) (userId : String)
    (now : Int) : Except EscrowError Unit × EscrowState :=
  match findClaim st claimId with
  | none => (.error .claimNotFound, st)
  | some claim =>
    if claim.userId ≠ userId then (.error .unauthorized, st)
    else if claim.status ≠ .AVAILABLE then (.error (.claimIs claim.status), st)
    else if claimIsExpired claim now then
      (.error .claimExpired,
       { st with claims := setClaimStatus st.claims claimId .EXPIRED })
    else
      (.ok (),
       { st with
         wallets := creditWallet st.wallets userId claim.amount
         vault :=
           if claim.claimantType = .CREATOR then
             { st.vault with
               creatorShare := st.vault.creatorShare - claim.amount
               totalBalance := st.vault.totalBalance - claim.amount }
           else
             { st.vault with
               investorPool := st.vault.investorPool - claim.amount
               totalBalance := st.vault.totalBalance - claim.amount }
         claims := setClaimStatus st.claims claimId .CLAIMED })

/-- `DEXEscrowService.expireOldClaims` (lines 725-737): every AVAILABLE
claim past its expiry becomes EXPIRED; returns the update count. -/
def expireOldClaims (st : EscrowState) (now : Int) : EscrowState × Nat :=
  ({ st with claims := st.claims.map (fun c =>
      if c.status == .AVAILABLE && claimIsExpired c now then
        { c with status := .EXPIRED }
      else c) },
   (st.claims.filter (fun c =>
      c.status == .AVAILABLE && claimIsExpired c now)).length)

/-- One entry of the `results` array built by the claims route. -/
inductive ClaimOutcome where
  | ok (claimId : Nat) (amount : ℚ)
  | failed (claimId : Nat) (error : EscrowError)
  deriving DecidableEq, Repr

/-- The query of the claimAll branch (claims route): AVAILABLE claims of
the user whose expiry is null or in the future. -/
def availableClaimsFor (st : EscrowState) (userId : String) (now : Int) :
    List Claim :=
  st.claims.filter (fun c =>
    c.userId == userId && c.status == .AVAILABLE &&
      (match c.expiresAt with
       | none => true
       | some t => now < t))

/-- The claimAll loop (claims route, lines 145-154): `processClaim` per
claim inside try/catch, recording success with the claim's amount or the
error, accumulating `totalClaimed` over successes only. -/
def runClaims (userId : String) (now : Int) :
    EscrowState → List Claim → EscrowState × List ClaimOutcome × ℚ
  | st, [] => (st, [], 0)
  | st, claim :: rest =>
    match processClaim st claim.id userId now with
    | (.ok _, st2) =>
      let (stFin, outcomes, total) := runClaims userId now st2 rest
      (stFin, .ok claim.id claim.amount :: outcomes, claim.amount + total)
    | (.error e, st2) =>
      let (stFin, outcomes, total) := runClaims userId now st2 rest
      (stFin, .failed claim.id e :: outcomes, total)

/-- The claimAll branch of the claims route POST handler (lines 118-161). -/
def claimAll (st : EscrowState) (userId : String) (now : Int) :
    Except EscrowError (EscrowState × List ClaimOutcome × ℚ) :=
  if (availableClaimsFor st userId now).isEmpty then
    .error .noAvailableClaims
  else .ok (runClaims userId now st (availableClaimsFor st userId now))

/-- The operations a caller can commit against one vault.  `createVault`
on an existing vault returns its id and changes nothing. -/
inductive Op where
  | createVault
  | deposit (amount : ℚ)
  | verify (depositId : Nat)
  | distribute (offering : Offering) (depositId : Option Nat) (now : Int)
  | claim (claimId : Nat) (userId : String) (now : Int)
  | expire (now : Int)

/-- The committed state after an operation: failed transactions roll back
(except the lazy-expiry write of `processClaim`, which its state
component already reflects). -/
def applyOp (st : EscrowState) : Op → EscrowState
  | .createVault => st
  | .deposit amount =>
    match depositRevenue st amount with
    | .ok (st2, _) => st2
    | .error _ => st
  | .verify dId =>
    match verifyDeposit st dId with
    | .ok st2 => st2
    | .error _ => st
  | .distribute offering dId now =>
    match distributeRevenue st offering dId now with
    | .ok (st2, _) => st2
    | .error _ => st
  | .claim cId uId now => (processClaim st cId uId now).2
  | .expire now => (expireOldClaims st now).1

/-- A finite sequence of committed operations. -/
def runOps (st : EscrowState) (ops : List Op) : EscrowState :=
  ops.foldl applyOp st

/-! ## General lemmas about the embedding -/

lemma foldl_add_ownershipPercent (l : List InvestorStake) (a : ℚ) :
    l.foldl (fun sum inv => sum + inv.ownershipPercent) a =
      a + (l.map (fun inv => inv.ownershipPercent)).sum := by
  induction l generalizing a with
  | nil => simp
  | cons x xs ih => simp [ih]; ring

lemma sumOwnershipPercent_eq (l : List InvestorStake) :
    sumOwnershipPercent l = (l.map (fun inv => inv.ownershipPercent)).sum := by
  simpa [sumOwnershipPercent] using foldl_add_ownershipPercent l 0

lemma snapshot_creator_pct (offering : Offering) :
    (getOwnershipSnapshot offering).creator.ownershipPercent =
      100 - sumOwnershipPercent (getOwnershipSnapshot offering).investors := rfl

/-- Elimination form of a successful `distributeRevenue`: the vault was
ACTIVE, a positive amount was resolved, and the returned value and state
are the split and the transaction write for that amount. -/
lemma distributeRevenue_ok_elim {st : EscrowState} {offering : Offering}
    {depositId : Option Nat} {now : Int} {st2 : EscrowState}
    {res : DistributionResult}
    (h : distributeRevenue st offering depositId now = .ok (st2, res)) :
    st.vault.status = .ACTIVE ∧
    ∃ amt, resolveAmount st depositId = .ok amt ∧ 0 < amt ∧
      res = computeDistribution offering amt ∧
      st2 = applyDistribution st offering depositId now amt := by
  unfold distributeRevenue at h
  split at h
  · exact Except.noConfusion h
  · rename_i hact
    cases hr : resolveAmount st depositId with
    | error e =>
      rw [hr] at h
      exact Except.noConfusion h
    | ok amt =>
      rw [hr] at h
      dsimp only at h
      split at h
      · exact Except.noConfusion h
      · rename_i hle
        simp only [Except.ok.injEq, Prod.mk.injEq] at h
        exact ⟨not_not.mp hact, amt, rfl, not_le.mp hle, h.2.symm, h.1.symm⟩

/-- Sum of the amounts of a list of claim entries. -/
def claimsTotal (entries : List ClaimEntry) : ℚ :=
  (entries.map (fun e => e.amount)).sum

/-- Sum of the amounts of the INVESTOR-typed claim entries. -/
def investorClaimsTotal (entries : List ClaimEntry) : ℚ :=
  ((entries.filter (fun e => e.claimantType == .INVESTOR)).map
    (fun e => e.amount)).sum

lemma computeDistribution_totalAmount (o : Offering) (amt : ℚ) :
    (computeDistribution o amt).totalAmount = amt := rfl

lemma computeDistribution_platformFee (o : Offering) (amt : ℚ) :
    (computeDistribution o amt).platformFee =
      amt * (PLATFORM_FEE_PERCENT / 100) := rfl

lemma computeDistribution_creatorAmount (o : Offering) (amt : ℚ) :
    (computeDistribution o amt).creatorAmount =
      (amt - amt * (PLATFORM_FEE_PERCENT / 100)) *
        ((getOwnershipSnapshot o).creator.ownershipPercent / 100) := rfl

lemma computeDistribution_investorAmount (o : Offering) (amt : ℚ) :
    (computeDistribution o amt).investorAmount =
      (amt - amt * (PLATFORM_FEE_PERCENT / 100)) -
        (computeDistribution o amt).creatorAmount := rfl

lemma computeDistribution_claims (o : Offering) (amt : ℚ) :
    (computeDistribution o amt).claims =
      (if 0 < (computeDistribution o amt).creatorAmount then
        [{ userId := (getOwnershipSnapshot o).creator.userId,
           claimantType := .CREATOR,
           amount := (computeDistribution o amt).creatorAmount,
           ownershipPercent := (getOwnershipSnapshot o).creator.ownershipPercent,
           shares := none }]
      else []) ++
      ((getOwnershipSnapshot o).investors.filter
          (fun inv => decide (0 < inv.ownershipPercent))).map
        (fun inv =>
          { userId := inv.userId, claimantType := .INVESTOR,
            amount := (amt - amt * (PLATFORM_FEE_PERCENT / 100)) *
              (inv.ownershipPercent / 100),
            ownershipPercent := inv.ownershipPercent,
            shares := some inv.shares }) := rfl

/-- Summing the positive-percent investor shares of `d` equals `d` times
the total percent over 100, provided no percent is negative (the skipped
entries all carry exactly zero). -/
lemma investor_claims_sum (d : ℚ) (l : List InvestorStake)
    (h : ∀ inv ∈ l, 0 ≤ inv.ownershipPercent) :
    ((l.filter (fun inv => decide (0 < inv.ownershipPercent))).map
        (fun inv => d * (inv.ownershipPercent / 100))).sum =
      d * ((l.map (fun inv => inv.ownershipPercent)).sum / 100) := by
  induction l with
  | nil => simp
  | cons x xs ih =>
    have hx : (0:ℚ) ≤ x.ownershipPercent := h x (by simp)
    have hxs : ∀ inv ∈ xs, (0:ℚ) ≤ inv.ownershipPercent :=
      fun i hi => h i (by simp [hi])
    by_cases hpos : 0 < x.ownershipPercent
    · rw [List.filter_cons, if_pos (by simpa using hpos), List.map_cons,
        List.sum_cons, ih hxs, List.map_cons, List.sum_cons]
      ring
    · have hzero : x.ownershipPercent = 0 := le_antisymm (not_lt.mp hpos) hx
      rw [List.filter_cons, if_neg (by simpa using hpos), ih hxs,
        List.map_cons, List.sum_cons, hzero]
      ring

/-- The split identities of `computeDistribution`, for a positive amount
and a snapshot whose investor percents are nonnegative and sum to at most
100 (as holds for all consistent share data): fee plus shares equals the
total, the claim amounts sum to `creatorAmount + investorAmount`, and the
investor claim amounts sum to `investorAmount` exactly. -/
lemma computeDistribution_splits (o : Offering) (amt : ℚ)
    (hpos : 0 < amt)
    (hper : ∀ inv ∈ (getOwnershipSnapshot o).investors, 0 ≤ inv.ownershipPercent)
    (hsum : sumOwnershipPercent (getOwnershipSnapshot o).investors ≤ 100) :
    (computeDistribution o amt).platformFee +
        (computeDistribution o amt).creatorAmount +
        (computeDistribution o amt).investorAmount =
      (computeDistribution o amt).totalAmount ∧
    claimsTotal (computeDistribution o amt).claims =
      (computeDistribution o amt).creatorAmount +
        (computeDistribution o amt).investorAmount ∧
    investorClaimsTotal (computeDistribution o amt).claims =
      (computeDistribution o amt).investorAmount := by
  have hd : (0:ℚ) ≤ amt - amt * (PLATFORM_FEE_PERCENT / 100) := by
    rw [PLATFORM_FEE_PERCENT]; nlinarith
  have hcp : (0:ℚ) ≤ (getOwnershipSnapshot o).creator.ownershipPercent := by
    rw [snapshot_creator_pct]; linarith
  have hca : (0:ℚ) ≤ (computeDistribution o amt).creatorAmount := by
    rw [computeDistribution_creatorAmount]
    exact mul_nonneg hd (by linarith)
  have hmap : ∀ l : List InvestorStake,
      ((l.map (fun inv =>
        ({ userId := inv.userId, claimantType := .INVESTOR,
           amount := (amt - amt * (PLATFORM_FEE_PERCENT / 100)) *
             (inv.ownershipPercent / 100),
           ownershipPercent := inv.ownershipPercent,
           shares := some inv.shares } : ClaimEntry))).map (fun e => e.amount)) =
      l.map (fun inv => (amt - amt * (PLATFORM_FEE_PERCENT / 100)) *
        (inv.ownershipPercent / 100)) := by
    intro l
    rw [List.map_map]
    rfl
  have hfinv : ∀ l : List InvestorStake,
      ((l.map (fun inv =>
        ({ userId := inv.userId, claimantType := .INVESTOR,
           amount := (amt - amt * (PLATFORM_FEE_PERCENT / 100)) *
             (inv.ownershipPercent / 100),
           ownershipPercent := inv.ownershipPercent,
           shares := some inv.shares } : ClaimEntry))).filter
        (fun e => e.claimantType == .INVESTOR)) =
      l.map (fun inv =>
        ({ userId := inv.userId, claimantType := .INVESTOR,
           amount := (amt - amt * (PLATFORM_FEE_PERCENT / 100)) *
             (inv.ownershipPercent / 100),
           ownershipPercent := inv.ownershipPercent,
           shares := some inv.shares } : ClaimEntry)) := by
    intro l
    induction l with
    | nil => rfl
    | cons y ys ihy => simp [ihy]
  have hinvsum :
      (((((getOwnershipSnapshot o).investors.filter
        (fun inv => decide (0 < inv.ownershipPercent))).map
        (fun inv =>
          ({ userId := inv.userId, claimantType := .INVESTOR,
             amount := (amt - amt * (PLATFORM_FEE_PERCENT / 100)) *
               (inv.ownershipPercent / 100),
             ownershipPercent := inv.ownershipPercent,
             shares := some inv.shares } : ClaimEntry))).map
        (fun e => e.amount)).sum) =
      (amt - amt * (PLATFORM_FEE_PERCENT / 100)) *
        (sumOwnershipPercent (getOwnershipSnapshot o).investors / 100) := by
    rw [hmap, investor_claims_sum _ _ hper, sumOwnershipPercent_eq]
  have hIA : (computeDistribution o amt).investorAmount =
      (amt - amt * (PLATFORM_FEE_PERCENT / 100)) *
        (sumOwnershipPercent (getOwnershipSnapshot o).investors / 100) := by
    rw [computeDistribution_investorAmount, computeDistribution_creatorAmount,
      snapshot_creator_pct]
    ring
  have hcsum : (((if 0 < (computeDistribution o amt).creatorAmount then
      [{ userId := (getOwnershipSnapshot o).creator.userId,
         claimantType := .CREATOR,
         amount := (computeDistribution o amt).creatorAmount,
         ownershipPercent := (getOwnershipSnapshot o).creator.ownershipPercent,
         shares := none : ClaimEntry }]
      else []).map (fun e => e.amount)).sum) =
      (computeDistribution o amt).creatorAmount := by
    rcases lt_or_eq_of_le hca with hlt | heq
    · rw [if_pos hlt]
      simp
    · rw [if_neg (by rw [← heq]; exact lt_irrefl 0)]
      simp [← heq]
  have hfc : (((if 0 < (computeDistribution o amt).creatorAmount then
      [{ userId := (getOwnershipSnapshot o).creator.userId,
         claimantType := .CREATOR,
         amount := (computeDistribution o amt).creatorAmount,
         ownershipPercent := (getOwnershipSnapshot o).creator.ownershipPercent,
         shares := none : ClaimEntry }]
      else []).filter (fun e => e.claimantType == .INVESTOR))) = [] := by
    split
    · simp
    · rfl
  refine ⟨?_, ?_, ?_⟩
  · rw [computeDistribution_totalAmount, computeDistribution_platformFee,
      computeDistribution_investorAmount]
    ring
  · rw [claimsTotal, computeDistribution_claims, List.map_append,
      List.sum_append, hcsum, hinvsum, hIA]
  · rw [investorClaimsTotal, computeDistribution_claims, List.filter_append,
      hfc, hfinv, List.nil_append, hinvsum, hIA]


/-! ## Claim C1: vault balance conservation -/

/-- Scenario: 1000 total shares, 200 available (800 sold), 20% share
percentage, one investor holding all 800 sold shares. -/
def c1Offering : Offering :=
  { creatorId := "creator", totalShares := 1000, availableShares := 200,
    sharePercentage := 20,
    confirmedInvestments := [{ investorId := "alice", shares := 800 }] }

/-- The committed state after depositing 100, verifying the deposit and
distributing it. -/
def c1State : EscrowState :=
  runOps initialState
    [.deposit 100, .verify 0, .distribute c1Offering (some 0) 17]

/-- Claim C1 (code_bug evidence): after `createVault`, `depositRevenue 100`,
`verifyDeposit` and `distributeRevenue`, the vault has
`totalBalance = 100` but `pendingRelease + creatorShare + investorPool = 95`:
the 5% platform fee is subtracted from the distributable amount yet never
removed from `totalBalance` nor credited to any bucket, so the claimed
invariant `totalBalance = pendingRelease + creatorShare + investorPool`
fails after the first committed distribution. -/
theorem c1_conservation_fails :
    c1State.vault.totalBalance = 100 ∧
    c1State.vault.pendingRelease + c1State.vault.creatorShare +
      c1State.vault.investorPool = 95 ∧
    c1State.vault.totalBalance ≠
      c1State.vault.pendingRelease + c1State.vault.creatorShare +
        c1State.vault.investorPool := by
  norm_num +decide [c1State, c1Offering, runOps, applyOp, depositRevenue,
    verifyDeposit, findDeposit, distributeRevenue, resolveAmount,
    applyDistribution, computeDistribution, getOwnershipSnapshot,
    sumOwnershipPercent, mkClaims, initialState, initialVault,
    PLATFORM_FEE_PERCENT, CLAIM_EXPIRY_DAYS]

/-- The platform fees recorded across all committed distributions. -/
def feeTotal (st : EscrowState) : ℚ :=
  (st.distributions.map (fun d => d.platformFee)).sum

/-- What the code actually maintains: `totalBalance` equals the three
buckets plus the accumulated platform fees, which are deducted from the
distributable amount but never removed from `totalBalance`. -/
def ConservesWithFees (st : EscrowState) : Prop :=
  st.vault.totalBalance =
    st.vault.pendingRelease + st.vault.creatorShare + st.vault.investorPool +
      feeTotal st

lemma applyDistribution_vault (st : EscrowState) (off : Offering)
    (dep : Option Nat) (now : Int) (amt : ℚ) :
    (applyDistribution st off dep now amt).vault =
      { st.vault with
        pendingRelease := st.vault.pendingRelease - amt
        totalDistributed := st.vault.totalDistributed + amt
        creatorShare := st.vault.creatorShare +
          (computeDistribution off amt).creatorAmount
        investorPool := st.vault.investorPool +
          (computeDistribution off amt).investorAmount } := rfl

lemma feeTotal_applyDistribution (st : EscrowState) (off : Offering)
    (dep : Option Nat) (now : Int) (amt : ℚ) :
    feeTotal (applyDistribution st off dep now amt) =
      feeTotal st + (computeDistribution off amt).platformFee := by
  show ((st.distributions ++ _).map _).sum = _
  rw [List.map_append, List.sum_append, feeTotal]
  simp

/-- Every committed operation preserves the fee-adjusted balance
equation. -/
lemma applyOp_conserves (st : EscrowState) (op : Op)
    (h : ConservesWithFees st) : ConservesWithFees (applyOp st op) := by
  cases op with
  | createVault => exact h
  | deposit a =>
    simp only [applyOp]
    cases hd : depositRevenue st a with
    | error e => exact h
    | ok p =>
      obtain ⟨st2, n⟩ := p
      rw [depositRevenue] at hd
      split at hd
      · exact Except.noConfusion hd
      · split at hd
        · exact Except.noConfusion hd
        · simp only [Except.ok.injEq, Prod.mk.injEq] at hd
          obtain ⟨hst2, -⟩ := hd
          rw [ConservesWithFees, ← hst2]
          rw [ConservesWithFees] at h

          dsimp only [feeTotal] at h ⊢
          linarith
  | verify dId =>
    simp only [applyOp]
    cases hd : verifyDeposit st dId with
    | error e => exact h
    | ok st2 =>
      rw [verifyDeposit] at hd
      split at hd
      · exact Except.noConfusion hd
      · split at hd
        · exact Except.noConfusion hd
        · simp only [Except.ok.injEq] at hd
          rw [ConservesWithFees, ← hd]
          exact h
  | distribute off dep now =>
    simp only [applyOp]
    cases hd : distributeRevenue st off dep now with
    | error e => exact h
    | ok p =>
      obtain ⟨st2, res⟩ := p
      obtain ⟨-, amt, -, -, -, hst2⟩ := distributeRevenue_ok_elim hd
      rw [hst2, ConservesWithFees, applyDistribution_vault,
        feeTotal_applyDistribution]
      have hsplit : (computeDistribution off amt).creatorAmount +
          (computeDistribution off amt).investorAmount +
          (computeDistribution off amt).platformFee = amt := by
        rw [computeDistribution_investorAmount, computeDistribution_platformFee]
        ring
      rw [ConservesWithFees] at h
      dsimp only
      linarith
  | claim cId u now =>
    show ConservesWithFees (processClaim st cId u now).2
    rw [processClaim]
    cases hf : findClaim st cId with
    | none => exact h
    | some c =>
      dsimp only
      by_cases hu : c.userId ≠ u
      · rw [if_pos hu]; exact h
      · rw [if_neg hu]
        by_cases hs : c.status ≠ .AVAILABLE
        · rw [if_pos hs]; exact h
        · rw [if_neg hs]
          by_cases he : claimIsExpired c now = true
          · rw [if_pos he]; exact h
          · rw [if_neg he]
            rw [ConservesWithFees] at h ⊢
            dsimp only [feeTotal] at h ⊢
            by_cases hct : c.claimantType = .CREATOR
            · rw [if_pos hct]
              dsimp only
              linarith
            · rw [if_neg hct]
              dsimp only
              linarith
  | expire now => exact h

/-- The fee-adjusted equation holds after any finite sequence of
committed operations from a fresh vault. -/
lemma runOps_conserves (ops : List Op) :
    ∀ st : EscrowState, ConservesWithFees st →
      ConservesWithFees (runOps st ops) := by
  induction ops with
  | nil => intro st h; exact h
  | cons op rest ih =>
    intro st h
    exact ih (applyOp st op) (applyOp_conserves st op h)

lemma initialState_conserves : ConservesWithFees initialState := by
  rw [ConservesWithFees]
  norm_num [initialState, initialVault, feeTotal]

/-! ## Claim C5: ownership sums to 100 -/

/-- Claim C5: for every offering with `soldShares > 0`, the snapshot's
investors carry `ownershipPercent = shares / soldShares * sharePercentage`
each, and the creator percent plus the investor percents sum to exactly
100 (hence within any tolerance). -/
theorem c5_ownership_sums_to_100 (offering : Offering)
    (hsold : 0 < offering.totalShares - offering.availableShares) :
    (getOwnershipSnapshot offering).creator.ownershipPercent +
      sumOwnershipPercent (getOwnershipSnapshot offering).investors = 100 ∧
    (getOwnershipSnapshot offering).investors =
      offering.confirmedInvestments.map (fun investment =>
        { userId := investment.investorId, shares := investment.shares,
          ownershipPercent := ((investment.shares : ℚ) /
              ((offering.totalShares - offering.availableShares : Int) : ℚ)) *
            offering.sharePercentage }) := by
  constructor
  · rw [snapshot_creator_pct]
    ring
  · rfl

/-- Witness for C5 at the concrete scenario offering. -/
theorem c5_witness :
    (getOwnershipSnapshot c1Offering).creator.ownershipPercent +
      sumOwnershipPercent (getOwnershipSnapshot c1Offering).investors = 100 :=
  (c5_ownership_sums_to_100 c1Offering (by decide)).1

/-! ## Claim C2: distribution splits equal the total -/

/-- Claim C2: every successful `distributeRevenue` returns a distribution
with `platformFee + creatorAmount + investorAmount = totalAmount`
(exactly, hence within rounding tolerance) and claim amounts summing to
`creatorAmount + investorAmount`, provided the snapshot percents are
nonnegative and sum to at most 100 (true of all consistent share data). -/
theorem c2_distribution_splits (st : EscrowState) (offering : Offering)
    (depositId : Option Nat) (now : Int) (st2 : EscrowState)
    (res : DistributionResult)
    (hper : ∀ inv ∈ (getOwnershipSnapshot offering).investors,
      0 ≤ inv.ownershipPercent)
    (hsum : sumOwnershipPercent (getOwnershipSnapshot offering).investors ≤ 100)
    (h : distributeRevenue st offering depositId now = .ok (st2, res)) :
    res.platformFee + res.creatorAmount + res.investorAmount =
      res.totalAmount ∧
    claimsTotal res.claims = res.creatorAmount + res.investorAmount := by
  obtain ⟨-, amt, -, hpos, hres, -⟩ := distributeRevenue_ok_elim h
  subst hres
  obtain ⟨h1, h2, -⟩ := computeDistribution_splits offering amt hpos hper hsum
  exact ⟨h1, h2⟩

/-- Witness for C2: the scenario-1 distribution (deposit 100, fee 5,
creator 76, investor 19). -/
theorem c2_witness :
    (computeDistribution c1Offering 100).platformFee +
      (computeDistribution c1Offering 100).creatorAmount +
      (computeDistribution c1Offering 100).investorAmount =
      (computeDistribution c1Offering 100).totalAmount ∧
    claimsTotal (computeDistribution c1Offering 100).claims =
      (computeDistribution c1Offering 100).creatorAmount +
        (computeDistribution c1Offering 100).investorAmount :=
  c2_distribution_splits
    (runOps initialState [.deposit 100]) c1Offering none 17
    (applyDistribution (runOps initialState [.deposit 100]) c1Offering none 17 100)
    (computeDistribution c1Offering 100)
    (by norm_num [getOwnershipSnapshot, c1Offering, sumOwnershipPercent])
    (by norm_num [getOwnershipSnapshot, c1Offering, sumOwnershipPercent])
    (by norm_num +decide [runOps, applyOp, depositRevenue, initialState,
      initialVault, distributeRevenue, resolveAmount, c1Offering])

/-! ## Claim C3: distribute with a depositId -/

/-- The state with one PENDING deposit of 100 and nothing else. -/
def c3State : EscrowState := runOps initialState [.deposit 100]

/-- Counterexample to C3 as stated: `distributeRevenue` with a deposit
whose status is PENDING (never verified) succeeds — the code only rejects
a missing or already-DISTRIBUTED deposit (line 319), not a PENDING one. -/
theorem c3_counterexample :
    (findDeposit c3State 0).map (fun d => d.status) = some .PENDING ∧
    distributeRevenue c3State c1Offering (some 0) 3 =
      .ok (applyDistribution c3State c1Offering (some 0) 3 100,
           computeDistribution c1Offering 100) := by
  constructor
  · norm_num +decide [c3State, runOps, applyOp, depositRevenue, initialState,
      initialVault, findDeposit]
  · norm_num +decide [c3State, runOps, applyOp, depositRevenue, initialState,
      initialVault, distributeRevenue, resolveAmount, findDeposit]

lemma findDeposit_mark_distributed (st : EscrowState) (dId : Nat)
    (d : Deposit) (h : findDeposit st dId = some d) :
    (st.deposits.map (fun x =>
      if x.id == dId then { x with status := .DISTRIBUTED } else x)).find?
        (fun x => x.id == dId) = some { d with status := .DISTRIBUTED } := by
  rw [List.find?_map]
  have hcomp : ((fun x => x.id == dId) ∘ (fun x : Deposit =>
      if x.id == dId then { x with status := .DISTRIBUTED } else x)) =
      (fun x : Deposit => x.id == dId) := by
    funext x
    by_cases hx : x.id = dId
    · simp [hx]
    · simp [hx]
  have h' : st.deposits.find? (fun x => x.id == dId) = some d := h
  rw [hcomp, h']
  have hid : (d.id == dId) = true := by
    simpa using List.find?_some h'
  simp [Option.map, hid]

/-- Claim C3 amended: a depositId is rejected (`invalidDeposit`, the
"Invalid or already distributed deposit" error) exactly when the deposit
is missing or already DISTRIBUTED — PENDING and VERIFIED deposits are both
accepted; and after a successful distribution of a deposit, a second
`distributeRevenue` with the same depositId fails with that error and
leaves the committed state (in particular `pendingRelease` and
`totalDistributed`) unchanged. -/
theorem c3_amended_deposit_rule :
    (∀ st offering (dId : Nat) now, st.vault.status = .ACTIVE →
      findDeposit st dId = none →
      distributeRevenue st offering (some dId) now = .error .invalidDeposit) ∧
    (∀ st offering (dId : Nat) now d, st.vault.status = .ACTIVE →
      findDeposit st dId = some d → d.status = .DISTRIBUTED →
      distributeRevenue st offering (some dId) now = .error .invalidDeposit) ∧
    (∀ st offering (dId : Nat) now st2 res offering2 now2,
      distributeRevenue st offering (some dId) now = .ok (st2, res) →
      distributeRevenue st2 offering2 (some dId) now2 =
        .error .invalidDeposit ∧
      applyOp st2 (.distribute offering2 (some dId) now2) = st2) := by
  refine ⟨?_, ?_, ?_⟩
  · intro st offering dId now hact hfind
    rw [distributeRevenue, if_neg (by simp [hact]), resolveAmount, hfind]
  · intro st offering dId now d hact hfind hstatus
    rw [distributeRevenue, if_neg (by simp [hact]), resolveAmount, hfind]
    simp [hstatus]
  · intro st offering dId now st2 res offering2 now2 h
    obtain ⟨hact, amt, hres, hpos, -, hst2⟩ := distributeRevenue_ok_elim h
    have hd : ∃ d, findDeposit st dId = some d ∧ d.status ≠ .DISTRIBUTED := by
      rw [resolveAmount] at hres
      cases hfd : findDeposit st dId with
      | none => rw [hfd] at hres; exact Except.noConfusion hres
      | some d =>
        rw [hfd] at hres
        refine ⟨d, rfl, ?_⟩
        intro hdist
        simp [hdist] at hres
    obtain ⟨d, hfd, -⟩ := hd
    have hst2status : st2.vault.status = st.vault.status := by
      rw [hst2]; rfl
    have hfd2 : findDeposit st2 dId = some { d with status := .DISTRIBUTED } := by
      rw [hst2]
      show (st.deposits.map _).find? _ = _
      exact findDeposit_mark_distributed st dId d hfd
    have herr : distributeRevenue st2 offering2 (some dId) now2 =
        .error .invalidDeposit := by
      rw [distributeRevenue, if_neg (by simp [hst2status, hact]),
        resolveAmount, hfd2]
      simp
    refine ⟨herr, ?_⟩
    rw [applyOp, herr]

/-- Witness for the amended C3: distributing the PENDING deposit once
succeeds; the same depositId is then rejected and the state kept. -/
theorem c3_amended_witness :
    distributeRevenue
        (applyDistribution c3State c1Offering (some 0) 3 100)
        c1Offering (some 0) 9 = .error .invalidDeposit ∧
    applyOp (applyDistribution c3State c1Offering (some 0) 3 100)
        (.distribute c1Offering (some 0) 9) =
      applyDistribution c3State c1Offering (some 0) 3 100 :=
  c3_amended_deposit_rule.2.2 c3State c1Offering 0 3
    (applyDistribution c3State c1Offering (some 0) 3 100)
    (computeDistribution c1Offering 100) c1Offering 9
    (by norm_num +decide [c3State, runOps, applyOp, depositRevenue,
      initialState, initialVault, distributeRevenue, resolveAmount,
      findDeposit])

/-! ## Claim C4: offerings with no sold shares -/

/-- An offering with all shares still available and no confirmed
investments: `soldShares = 0`. -/
def c4Offering : Offering :=
  { creatorId := "creator", totalShares := 100, availableShares := 100,
    sharePercentage := 20, confirmedInvestments := [] }

/-- A vault holding a pending 50 deposit. -/
def c4State : EscrowState := runOps initialState [.deposit 50]

/-- Counterexample to C4 as stated: with `soldShares = 0` the snapshot
computation does not fail (it is not even fallible) — it reports the
creator at 100% — and `distributeRevenue` succeeds, creating a
distribution and one creator claim. -/
theorem c4_counterexample :
    (getOwnershipSnapshot c4Offering).soldShares = 0 ∧
    (getOwnershipSnapshot c4Offering).creator.ownershipPercent = 100 ∧
    (getOwnershipSnapshot c4Offering).investors = [] ∧
    distributeRevenue c4State c4Offering none 2 =
      .ok (applyDistribution c4State c4Offering none 2 50,
           computeDistribution c4Offering 50) ∧
    (applyDistribution c4State c4Offering none 2 50).claims.length = 1 := by
  refine ⟨rfl, ?_, rfl, ?_, ?_⟩
  · norm_num [getOwnershipSnapshot, c4Offering, sumOwnershipPercent]
  · norm_num +decide [c4State, runOps, applyOp, depositRevenue, initialState,
      initialVault, distributeRevenue, resolveAmount]
  · norm_num +decide [c4State, runOps, applyOp, depositRevenue, initialState,
      initialVault, applyDistribution, computeDistribution,
      getOwnershipSnapshot, c4Offering, sumOwnershipPercent, mkClaims,
      PLATFORM_FEE_PERCENT]

/-- Claim C4 amended: the code has no `soldShares == 0` guard.  For an
offering with no shares sold and no confirmed investments the ownership
snapshot succeeds with the creator at 100% and no investors, and
`distributeRevenue` on an ACTIVE vault with positive `pendingRelease`
succeeds (creating a distribution) rather than failing. -/
theorem c4_amended_no_guard (offering : Offering)
    (h1 : offering.availableShares = offering.totalShares)
    (h2 : offering.confirmedInvestments = []) :
    getOwnershipSnapshot offering =
      { creator := { userId := offering.creatorId, ownershipPercent := 100 },
        investors := [], totalShares := offering.totalShares,
        soldShares := 0 } ∧
    (∀ st now, st.vault.status = .ACTIVE → 0 < st.vault.pendingRelease →
      distributeRevenue st offering none now =
        .ok (applyDistribution st offering none now st.vault.pendingRelease,
             computeDistribution offering st.vault.pendingRelease)) := by
  constructor
  · rw [getOwnershipSnapshot]
    simp [h1, h2, sumOwnershipPercent]
  · intro st now hact hpr
    rw [distributeRevenue, if_neg (by simp [hact]), resolveAmount]
    dsimp only
    rw [if_neg (not_le.mpr hpr)]

/-- Witness for the amended C4 at the concrete no-sales offering. -/
theorem c4_amended_witness :
    distributeRevenue c4State c4Offering none 2 =
      .ok (applyDistribution c4State c4Offering none 2
             c4State.vault.pendingRelease,
           computeDistribution c4Offering c4State.vault.pendingRelease) :=
  (c4_amended_no_guard c4Offering rfl rfl).2 c4State 2
    (by norm_num +decide [c4State, runOps, applyOp, depositRevenue,
      initialState, initialVault])
    (by norm_num +decide [c4State, runOps, applyOp, depositRevenue,
      initialState, initialVault])

/-! ## Claim C6: how the recorded investorAmount is computed -/

/-- 800 sold shares, but inconsistent confirmed-investment rows summing to
800 with one negative holding — the code validates none of this. -/
def c6Offering : Offering :=
  { creatorId := "creator", totalShares := 1000, availableShares := 200,
    sharePercentage := 20,
    confirmedInvestments :=
      [{ investorId := "a", shares := 900 },
       { investorId := "b", shares := -100 }] }

def c6State : EscrowState := runOps initialState [.deposit 100]

/-- Counterexample to C6 as stated: `investorAmount` is computed as
`distributableAmount - creatorAmount` (line 340), not as the sum of the
per-investor claim amounts, and on this (unvalidated) input the recorded
total 19 differs from the created investor claims' sum 171/8 = 21.375. -/
theorem c6_counterexample :
    distributeRevenue c6State c6Offering none 5 =
      .ok (applyDistribution c6State c6Offering none 5 100,
           computeDistribution c6Offering 100) ∧
    (computeDistribution c6Offering 100).investorAmount = 19 ∧
    investorClaimsTotal (computeDistribution c6Offering 100).claims = 171 / 8 ∧
    (computeDistribution c6Offering 100).investorAmount ≠
      investorClaimsTotal (computeDistribution c6Offering 100).claims := by
  refine ⟨?_, ?_, ?_, ?_⟩
  · norm_num +decide [c6State, runOps, applyOp, depositRevenue, initialState,
      initialVault, distributeRevenue, resolveAmount]
  · norm_num [computeDistribution_investorAmount,
      computeDistribution_creatorAmount, getOwnershipSnapshot, c6Offering,
      sumOwnershipPercent, snapshot_creator_pct, PLATFORM_FEE_PERCENT]
  · norm_num +decide [investorClaimsTotal, computeDistribution_claims,
      computeDistribution_creatorAmount, getOwnershipSnapshot, c6Offering,
      sumOwnershipPercent, PLATFORM_FEE_PERCENT]
  · norm_num +decide [computeDistribution_investorAmount,
      computeDistribution_creatorAmount, getOwnershipSnapshot, c6Offering,
      sumOwnershipPercent, snapshot_creator_pct, PLATFORM_FEE_PERCENT,
      investorClaimsTotal, computeDistribution_claims]

/-- Claim C6 amended: the recorded `investorAmount` equals
`(totalAmount - platformFee) - creatorAmount` (the complement, line 340);
whenever the snapshot percents are nonnegative and sum to at most 100
(all consistent share data), that value still equals the sum of the
INVESTOR claim amounts exactly. -/
theorem c6_amended_complement (st : EscrowState) (offering : Offering)
    (depositId : Option Nat) (now : Int) (st2 : EscrowState)
    (res : DistributionResult)
    (hper : ∀ inv ∈ (getOwnershipSnapshot offering).investors,
      0 ≤ inv.ownershipPercent)
    (hsum : sumOwnershipPercent (getOwnershipSnapshot offering).investors ≤ 100)
    (h : distributeRevenue st offering depositId now = .ok (st2, res)) :
    res.investorAmount = (res.totalAmount - res.platformFee) -
      res.creatorAmount ∧
    investorClaimsTotal res.claims = res.investorAmount := by
  obtain ⟨-, amt, -, hpos, hres, -⟩ := distributeRevenue_ok_elim h
  subst hres
  refine ⟨?_, (computeDistribution_splits offering amt hpos hper hsum).2.2⟩
  rw [computeDistribution_totalAmount, computeDistribution_platformFee,
    computeDistribution_investorAmount]

/-- Witness for the amended C6 at the scenario-1 distribution. -/
theorem c6_amended_witness :
    investorClaimsTotal (computeDistribution c1Offering 100).claims =
      (computeDistribution c1Offering 100).investorAmount :=
  (c6_amended_complement (runOps initialState [.deposit 100]) c1Offering
    none 17
    (applyDistribution (runOps initialState [.deposit 100]) c1Offering
      none 17 100)
    (computeDistribution c1Offering 100)
    (by norm_num [getOwnershipSnapshot, c1Offering, sumOwnershipPercent])
    (by norm_num [getOwnershipSnapshot, c1Offering, sumOwnershipPercent])
    (by norm_num +decide [runOps, applyOp, depositRevenue, initialState,
      initialVault, distributeRevenue, resolveAmount, c1Offering])).2

/-! ## Lookup lemmas for claims and wallets -/

lemma find?_append_some {α} {l1 : List α} (l2 : List α) {p : α → Bool}
    {c : α} (h : l1.find? p = some c) : (l1 ++ l2).find? p = some c := by
  induction l1 with
  | nil => simp [List.find?] at h
  | cons x xs ih =>
    cases hpx : p x with
    | true =>
      rw [List.find?_cons_of_pos _ hpx] at h
      rw [List.cons_append, List.find?_cons_of_pos _ hpx]
      exact h
    | false =>
      rw [List.find?_cons_of_neg _ (by simp [hpx])] at h
      rw [List.cons_append, List.find?_cons_of_neg _ (by simp [hpx])]
      exact ih h

lemma find?_append_none {α} {l1 : List α} (l2 : List α) {p : α → Bool}
    (h : l1.find? p = none) : (l1 ++ l2).find? p = l2.find? p := by
  induction l1 with
  | nil => rfl
  | cons x xs ih =>
    cases hpx : p x with
    | true =>
      rw [List.find?_cons_of_pos _ hpx] at h
      exact Option.noConfusion h
    | false =>
      rw [List.find?_cons_of_neg _ (by simp [hpx])] at h
      rw [List.cons_append, List.find?_cons_of_neg _ (by simp [hpx])]
      exact ih h

lemma find?_map_of_pred {α} (l : List α) (p : α → Bool) (g : α → α)
    (hg : ∀ x, p (g x) = p x) :
    (l.map g).find? p = (l.find? p).map g := by
  have hcomp : (p ∘ g) = p := funext hg
  rw [List.find?_map, hcomp]

lemma findClaim_setClaimStatus (l : List Claim) (cId cId2 : Nat)
    (s : ClaimStatus) (c : Claim)
    (h : l.find? (fun x => x.id == cId) = some c) :
    (setClaimStatus l cId2 s).find? (fun x => x.id == cId) =
      some (if c.id == cId2 then { c with status := s } else c) := by
  rw [setClaimStatus,
    find?_map_of_pred _ _ _ (fun x => by split <;> rfl), h]
  rfl

lemma creditWallet_balance (ws : List Wallet) (u : String) (a : ℚ) :
    walletBalanceOf (creditWallet ws u a) u = walletBalanceOf ws u + a := by
  rw [creditWallet]
  cases hf : ws.find? (fun w => w.userId == u) with
  | none =>
    rw [walletBalanceOf, find?_append_none _ hf, walletBalanceOf, hf]
    simp [List.find?]
  | some w =>
    rw [walletBalanceOf,
      find?_map_of_pred _ _ _ (fun x => by split <;> rfl), hf]
    have hid : w.userId = u := by
      simpa using List.find?_some hf
    rw [walletBalanceOf, hf]
    simp [hid]

/-! ## Claim C7: expiry monotonicity -/

/-- The wall-clock time an operation runs at, when it reads the clock. -/
def opTime : Op → Option Int
  | .distribute _ _ now => some now
  | .claim _ _ now => some now
  | .expire now => some now
  | _ => none

lemma depositRevenue_ok_claims {st : EscrowState} {a : ℚ}
    {st2 : EscrowState} {n : Nat}
    (h : depositRevenue st a = .ok (st2, n)) : st2.claims = st.claims := by
  rw [depositRevenue] at h
  split at h
  · exact Except.noConfusion h
  · split at h
    · exact Except.noConfusion h
    · simp only [Except.ok.injEq, Prod.mk.injEq] at h
      rw [← h.1]

lemma verifyDeposit_ok_claims {st : EscrowState} {dId : Nat}
    {st2 : EscrowState}
    (h : verifyDeposit st dId = .ok st2) : st2.claims = st.claims := by
  rw [verifyDeposit] at h
  split at h
  · exact Except.noConfusion h
  · split at h
    · exact Except.noConfusion h
    · simp only [Except.ok.injEq] at h
      rw [← h]

/-- The three possible effects of `processClaim` on the claims table:
untouched, lazy-expiry, or the CLAIMED transition — the latter only for a
found AVAILABLE claim that is not yet expired. -/
lemma processClaim_claims_cases (st : EscrowState) (cId : Nat) (u : String)
    (now : Int) :
    (processClaim st cId u now).2.claims = st.claims ∨
    (processClaim st cId u now).2.claims =
      setClaimStatus st.claims cId .EXPIRED ∨
    ((processClaim st cId u now).2.claims =
        setClaimStatus st.claims cId .CLAIMED ∧
      ∃ c2, findClaim st cId = some c2 ∧ c2.status = .AVAILABLE ∧
        claimIsExpired c2 now = false) := by
  rw [processClaim]
  cases hf : findClaim st cId with
  | none => left; rfl
  | some c2 =>
    dsimp only
    by_cases hu : c2.userId ≠ u
    · rw [if_pos hu]; left; rfl
    · rw [if_neg hu]
      by_cases hs : c2.status ≠ .AVAILABLE
      · rw [if_pos hs]; left; rfl
      · rw [if_neg hs]
        cases he : claimIsExpired c2 now with
        | false =>
          rw [if_neg (by simp [he])]
          right; right
          exact ⟨rfl, c2, rfl, not_not.mp hs, he⟩
        | true =>
          rw [if_pos (by simp [he])]
          right; left; rfl

/-- Claim C7: (1) `processClaim` on an AVAILABLE claim past its expiry
fails with the expired error and, as a committed side effect, marks the
claim EXPIRED; (2) `expireOldClaims` followed by `processClaim` on the
same claim (by its owner) fails with the status-conflict error naming
EXPIRED; (3) no operation run after a claim's expiry can turn that claim
CLAIMED. -/
theorem c7_expiry_monotonic :
    (∀ st (cId : Nat) (u : String) now c t,
      findClaim st cId = some c → c.userId = u → c.status = .AVAILABLE →
      c.expiresAt = some t → t < now →
      (processClaim st cId u now).1 = .error .claimExpired ∧
      findClaim (processClaim st cId u now).2 cId =
        some { c with status := .EXPIRED }) ∧
    (∀ st (cId : Nat) (u : String) now now2 c t,
      findClaim st cId = some c → c.userId = u → c.status = .AVAILABLE →
      c.expiresAt = some t → t < now →
      (processClaim (expireOldClaims st now).1 cId u now2).1 =
        .error (.claimIs .EXPIRED)) ∧
    (∀ st op (cId : Nat) c c2 t,
      findClaim st cId = some c → c.status ≠ .CLAIMED →
      c.expiresAt = some t → (∀ n, opTime op = some n → t < n) →
      findClaim (applyOp st op) cId = some c2 → c2.status ≠ .CLAIMED) := by
  have hexpired : ∀ (c : Claim) (t now : Int), c.expiresAt = some t →
      t < now → claimIsExpired c now = true := by
    intro c t now hexp hlt
    rw [claimIsExpired, hexp]
    simpa using hlt
  refine ⟨?_, ?_, ?_⟩
  · intro st cId u now c t hf hu hs hexp hlt
    rw [processClaim, hf]
    dsimp only
    rw [if_neg (by simp [hu]), if_neg (by simp [hs]),
      if_pos (hexpired c t now hexp hlt)]
    refine ⟨rfl, ?_⟩
    show (setClaimStatus st.claims cId .EXPIRED).find? _ = _
    have := findClaim_setClaimStatus st.claims cId cId .EXPIRED c hf
    rwa [if_pos (List.find?_some hf)] at this
  · intro st cId u now now2 c t hf hu hs hexp hlt
    have hf' : st.claims.find? (fun x => x.id == cId) = some c := hf
    have hcond : (c.status == ClaimStatus.AVAILABLE &&
        claimIsExpired c now) = true := by
      rw [hs, hexpired c t now hexp hlt]
      rfl
    have hfound : findClaim (expireOldClaims st now).1 cId =
        some { c with status := .EXPIRED } := by
      show ((st.claims.map _).find? _) = _
      rw [find?_map_of_pred _ _ _ (fun x => by split <;> rfl), hf']
      show some (if (c.status == ClaimStatus.AVAILABLE &&
          claimIsExpired c now) = true
          then { c with status := ClaimStatus.EXPIRED } else c) =
        some { c with status := ClaimStatus.EXPIRED }
      rw [if_pos hcond]
    rw [processClaim, hfound]
    dsimp only
    rw [if_neg (by simp [hu]), if_pos (by simp)]
  · intro st op cId c c2 t hf hnc hexp htime hf2
    have hf' : st.claims.find? (fun x => x.id == cId) = some c := hf
    cases op with
    | createVault =>
      have hf2' : findClaim st cId = some c2 := hf2
      rw [hf] at hf2'
      injection hf2' with h
      exact h ▸ hnc
    | deposit a =>
      simp only [applyOp] at hf2
      cases hd : depositRevenue st a with
      | error e =>
        rw [hd] at hf2
        have hf2' : findClaim st cId = some c2 := hf2
        rw [hf] at hf2'
        injection hf2' with h
        exact h ▸ hnc
      | ok p =>
        obtain ⟨st2, n⟩ := p
        rw [hd] at hf2
        have hf2' : st2.claims.find? (fun x => x.id == cId) = some c2 := hf2
        rw [depositRevenue_ok_claims hd, hf'] at hf2'
        injection hf2' with h
        exact h ▸ hnc
    | verify dId =>
      simp only [applyOp] at hf2
      cases hd : verifyDeposit st dId with
      | error e =>
        rw [hd] at hf2
        have hf2' : findClaim st cId = some c2 := hf2
        rw [hf] at hf2'
        injection hf2' with h
        exact h ▸ hnc
      | ok st2 =>
        rw [hd] at hf2
        have hf2' : st2.claims.find? (fun x => x.id == cId) = some c2 := hf2
        rw [verifyDeposit_ok_claims hd, hf'] at hf2'
        injection hf2' with h
        exact h ▸ hnc
    | distribute off dep now2 =>
      simp only [applyOp] at hf2
      cases hd : distributeRevenue st off dep now2 with
      | error e =>
        rw [hd] at hf2
        have hf2' : findClaim st cId = some c2 := hf2
        rw [hf] at hf2'
        injection hf2' with h
        exact h ▸ hnc
      | ok p =>
        obtain ⟨st2, res⟩ := p
        rw [hd] at hf2
        obtain ⟨-, amt, -, -, -, hst2⟩ := distributeRevenue_ok_elim hd
        have hf2' : st2.claims.find? (fun x => x.id == cId) = some c2 := hf2
        have hclaims : st2.claims = st.claims ++
            mkClaims st.nextClaimId (now2 + CLAIM_EXPIRY_DAYS)
              (computeDistribution off amt).claims := by
          rw [hst2]; rfl
        rw [hclaims, find?_append_some _ hf'] at hf2'
        injection hf2' with h
        exact h ▸ hnc
    | claim cId2 u2 now2 =>
      have hf2' : (processClaim st cId2 u2 now2).2.claims.find?
          (fun x => x.id == cId) = some c2 := hf2
      rcases processClaim_claims_cases st cId2 u2 now2 with
        hcase | hcase | ⟨hcase, c3, hf3, hs3, hne3⟩
      · rw [hcase, hf'] at hf2'
        injection hf2' with h
        exact h ▸ hnc
      · rw [hcase, findClaim_setClaimStatus st.claims cId cId2 _ c hf'] at hf2'
        injection hf2' with h
        rw [← h]
        split
        · intro hcontra
          exact ClaimStatus.noConfusion hcontra
        · exact hnc
      · rw [hcase, findClaim_setClaimStatus st.claims cId cId2 _ c hf'] at hf2'
        injection hf2' with h
        rw [← h]
        split
        · rename_i hcid
          exfalso
          have hcidc : c.id = cId := by simpa using List.find?_some hf'
          have hcid2 : c.id = cId2 := by simpa using hcid
          have : cId2 = cId := by rw [← hcid2, hcidc]
          rw [this, hf] at hf3
          injection hf3 with h3
          have hlt : t < now2 := htime now2 rfl
          rw [← h3] at hne3
          rw [hexpired c t now2 hexp hlt] at hne3
          exact Bool.noConfusion hne3
        · exact hnc
    | expire now2 =>
      have hf2' : (st.claims.map (fun x =>
          if x.status == .AVAILABLE && claimIsExpired x now2 then
            { x with status := .EXPIRED }
          else x)).find? (fun x => x.id == cId) = some c2 := hf2
      rw [find?_map_of_pred _ _ _ (fun x => by split <;> rfl), hf'] at hf2'
      injection hf2' with h
      rw [← h]
      dsimp only
      split
      · intro hcontra
        exact ClaimStatus.noConfusion hcontra
      · exact hnc

/-- A claim available to user "u" until day 5. -/
def c7Claim : Claim :=
  { id := 0, userId := "u", claimantType := .INVESTOR, amount := 10,
    ownershipPercent := 20, status := .AVAILABLE, expiresAt := some 5 }

/-- A vault holding that single claim. -/
def c7State : EscrowState :=
  { vault := { totalBalance := 10, pendingRelease := 0, totalDistributed := 10,
               creatorShare := 0, investorPool := 10, status := .ACTIVE },
    deposits := [], claims := [c7Claim], distributions := [], wallets := [],
    nextDepositId := 0, nextClaimId := 1 }

/-- Witness for C7: at day 9 (past the day-5 expiry) the direct claim
fails and expires the claim; sweeping first and then claiming fails with
the EXPIRED status conflict. -/
theorem c7_witness :
    (processClaim c7State 0 "u" 9).1 = .error .claimExpired ∧
    findClaim (processClaim c7State 0 "u" 9).2 0 =
      some { c7Claim with status := .EXPIRED } ∧
    (processClaim (expireOldClaims c7State 9).1 0 "u" 11).1 =
      .error (.claimIs .EXPIRED) :=
  ⟨(c7_expiry_monotonic.1 c7State 0 "u" 9 c7Claim 5 rfl rfl rfl rfl
      (by norm_num)).1,
   (c7_expiry_monotonic.1 c7State 0 "u" 9 c7Claim 5 rfl rfl rfl rfl
      (by norm_num)).2,
   c7_expiry_monotonic.2.1 c7State 0 "u" 9 11 c7Claim 5 rfl rfl rfl rfl
      (by norm_num)⟩

/-! ## Claim C8: claim idempotence -/

/-- A successful `processClaim` in closed form. -/
lemma processClaim_success (st : EscrowState) (cId : Nat) (u : String)
    (now : Int) (c : Claim)
    (hfind : findClaim st cId = some c)
    (huser : c.userId = u)
    (hstatus : c.status = .AVAILABLE)
    (hexp : claimIsExpired c now = false) :
    processClaim st cId u now = (.ok (),
      { st with
        wallets := creditWallet st.wallets u c.amount
        vault :=
          if c.claimantType = .CREATOR then
            { st.vault with
              creatorShare := st.vault.creatorShare - c.amount
              totalBalance := st.vault.totalBalance - c.amount }
          else
            { st.vault with
              investorPool := st.vault.investorPool - c.amount
              totalBalance := st.vault.totalBalance - c.amount }
        claims := setClaimStatus st.claims cId .CLAIMED }) := by
  rw [processClaim, hfind]
  dsimp only
  rw [if_neg (by simp [huser]), if_neg (by simp [hstatus]),
    if_neg (by simp [hexp])]

/-- `processClaim` on a claim that is not AVAILABLE: the status-conflict
error carries the claim's current status, and nothing changes. -/
lemma processClaim_not_available (st : EscrowState) (cId : Nat) (u : String)
    (now : Int) (c : Claim)
    (hfind : findClaim st cId = some c)
    (huser : c.userId = u)
    (hstatus : c.status ≠ .AVAILABLE) :
    processClaim st cId u now = (.error (.claimIs c.status), st) := by
  rw [processClaim, hfind]
  dsimp only
  rw [if_neg (by simp [huser]), if_pos hstatus]

/-- Second `processClaim` on an already-claimed claim: the conflict names
the CLAIMED status and the state is kept. -/
lemma processClaim_twice (st : EscrowState) (cId : Nat) (u : String)
    (now now2 : Int) (c : Claim)
    (hfind : findClaim st cId = some c)
    (huser : c.userId = u)
    (hstatus : c.status = .AVAILABLE)
    (hexp : claimIsExpired c now = false) :
    processClaim (processClaim st cId u now).2 cId u now2 =
      (.error (.claimIs .CLAIMED), (processClaim st cId u now).2) := by
  have hf' : st.claims.find? (fun x => x.id == cId) = some c := hfind
  rw [processClaim_success st cId u now c hfind huser hstatus hexp]
  dsimp only
  apply processClaim_not_available _ _ _ _ { c with status := .CLAIMED }
  · show (setClaimStatus st.claims cId .CLAIMED).find? (fun x => x.id == cId) = _
    have h2 := findClaim_setClaimStatus st.claims cId cId .CLAIMED c hf'
    rwa [if_pos (List.find?_some hf')] at h2
  · simpa using huser
  · intro hcontra
    exact ClaimStatus.noConfusion hcontra

/-- Claim C8: with the right user on an AVAILABLE, unexpired claim, the
first `processClaim` succeeds and credits the wallet by the claim amount;
the second fails with a status conflict naming CLAIMED, and across both
calls the wallet is credited exactly once. -/
theorem c8_claim_idempotence (st : EscrowState) (cId : Nat) (u : String)
    (now now2 : Int) (c : Claim)
    (hfind : findClaim st cId = some c)
    (huser : c.userId = u)
    (hstatus : c.status = .AVAILABLE)
    (hexp : claimIsExpired c now = false) :
    (processClaim st cId u now).1 = .ok () ∧
    walletBalance (processClaim st cId u now).2 u =
      walletBalance st u + c.amount ∧
    (processClaim (processClaim st cId u now).2 cId u now2).1 =
      .error (.claimIs .CLAIMED) ∧
    walletBalance (processClaim (processClaim st cId u now).2 cId u now2).2 u =
      walletBalance st u + c.amount := by
  have h1 := processClaim_success st cId u now c hfind huser hstatus hexp
  have h2 := processClaim_twice st cId u now now2 c hfind huser hstatus hexp
  refine ⟨by rw [h1], ?_, by rw [h2], ?_⟩
  · rw [h1]
    exact creditWallet_balance st.wallets u c.amount
  · rw [h2]
    dsimp only
    rw [h1]
    exact creditWallet_balance st.wallets u c.amount

/-- Witness for C8 at day 3 (before the day-5 expiry). -/
theorem c8_witness :
    (processClaim c7State 0 "u" 3).1 = .ok () ∧
    walletBalance (processClaim c7State 0 "u" 3).2 "u" =
      walletBalance c7State "u" + c7Claim.amount ∧
    (processClaim (processClaim c7State 0 "u" 3).2 0 "u" 4).1 =
      .error (.claimIs .CLAIMED) ∧
    walletBalance (processClaim (processClaim c7State 0 "u" 3).2 0 "u" 4).2
        "u" =
      walletBalance c7State "u" + c7Claim.amount :=
  c8_claim_idempotence c7State 0 "u" 3 4 c7Claim rfl rfl rfl (by norm_num
    [claimIsExpired, c7Claim])

/-! ## Claim C9: claimAll isolation -/

/-- The `totalClaimed` accumulator recomputed from an outcome list: the
sum of the amounts of the successful outcomes only. -/
def successTotal : List ClaimOutcome → ℚ
  | [] => 0
  | .ok _ amount :: rest => amount + successTotal rest
  | .failed _ _ :: rest => successTotal rest

def outcomeClaimId : ClaimOutcome → Nat
  | .ok cId _ => cId
  | .failed cId _ => cId

/-- The claimAll loop reports one outcome per fetched claim, in order —
a failing claim never aborts the rest — and its running total is the sum
of the successful amounts. -/
lemma runClaims_spec (u : String) (now : Int) (cs : List Claim) :
    ∀ st : EscrowState,
      (runClaims u now st cs).2.1.map outcomeClaimId =
        cs.map (fun c => c.id) ∧
      (runClaims u now st cs).2.2 = successTotal (runClaims u now st cs).2.1 := by
  induction cs with
  | nil => intro st; exact ⟨rfl, rfl⟩
  | cons c rest ih =>
    intro st
    rw [runClaims]
    cases hp : processClaim st c.id u now with
    | mk r st2 =>
      cases hrun : runClaims u now st2 rest with
      | mk stFin p =>
        obtain ⟨outcomes, total⟩ := p
        obtain ⟨hmap, htot⟩ := ih st2
        rw [hrun] at hmap htot
        cases r with
        | ok v =>
          dsimp only
          rw [hrun]
          dsimp only
          refine ⟨?_, ?_⟩
          · rw [List.map_cons, List.map_cons, hmap]
            rfl
          · rw [successTotal, ← htot]
        | error e =>
          dsimp only
          rw [hrun]
          dsimp only
          refine ⟨?_, ?_⟩
          · rw [List.map_cons, List.map_cons, hmap]
            rfl
          · rw [successTotal, ← htot]

/-- Claim C9: a successful `claimAll` reports exactly one outcome per
AVAILABLE, non-expired claim of the user (in fetch order, so no failure
prevents processing of the others), and its `totalClaimed` equals the sum
of the successfully processed amounts only. -/
theorem c9_claimall_isolation (st : EscrowState) (u : String) (now : Int)
    (st2 : EscrowState) (outcomes : List ClaimOutcome) (total : ℚ)
    (h : claimAll st u now = .ok (st2, outcomes, total)) :
    outcomes.map outcomeClaimId =
      (availableClaimsFor st u now).map (fun c => c.id) ∧
    total = successTotal outcomes := by
  rw [claimAll] at h
  split at h
  · exact Except.noConfusion h
  · simp only [Except.ok.injEq] at h
    obtain ⟨hmap, htot⟩ := runClaims_spec u now (availableClaimsFor st u now) st
    have h21 : outcomes =
        (runClaims u now st (availableClaimsFor st u now)).2.1 := by
      rw [h]
    have h22 : total =
        (runClaims u now st (availableClaimsFor st u now)).2.2 := by
      rw [h]
    rw [h21, h22]
    exact ⟨hmap, htot⟩

/-- Three AVAILABLE claims of user "u"; the first two share a row id, so
the second `processClaim` inside claimAll fails while claims one and
three succeed. -/
def c9State : EscrowState :=
  { vault := { totalBalance := 21, pendingRelease := 0, totalDistributed := 21,
               creatorShare := 0, investorPool := 21, status := .ACTIVE },
    deposits := [],
    claims :=
      [{ id := 0, userId := "u", claimantType := .INVESTOR, amount := 5,
         ownershipPercent := 10, status := .AVAILABLE, expiresAt := some 50 },
       { id := 0, userId := "u", claimantType := .INVESTOR, amount := 7,
         ownershipPercent := 10, status := .AVAILABLE, expiresAt := some 50 },
       { id := 1, userId := "u", claimantType := .INVESTOR, amount := 9,
         ownershipPercent := 10, status := .AVAILABLE, expiresAt := some 50 }],
    distributions := [], wallets := [], nextDepositId := 0, nextClaimId := 2 }

/-- Witness for C9 on the three-claim state. -/
theorem c9_witness :
    (runClaims "u" 3 c9State (availableClaimsFor c9State "u" 3)).2.1.map
        outcomeClaimId =
      (availableClaimsFor c9State "u" 3).map (fun c => c.id) ∧
    (runClaims "u" 3 c9State (availableClaimsFor c9State "u" 3)).2.2 =
      successTotal
        (runClaims "u" 3 c9State (availableClaimsFor c9State "u" 3)).2.1 :=
  c9_claimall_isolation c9State "u" 3
    (runClaims "u" 3 c9State (availableClaimsFor c9State "u" 3)).1
    (runClaims "u" 3 c9State (availableClaimsFor c9State "u" 3)).2.1
    (runClaims "u" 3 c9State (availableClaimsFor c9State "u" 3)).2.2
    (by rw [claimAll, if_neg (by decide)])

/-! ## Claim C10: distribution requires an ACTIVE vault -/

/-- Claim C10: whenever the vault's status is not ACTIVE (PAUSED,
DISPUTED or CLOSED), `distributeRevenue` fails with the vault-not-active
error — regardless of the depositId given or the pending balance — and
the committed state is unchanged. -/
theorem c10_distribute_requires_active_vault (st : EscrowState)
    (offering : Offering) (depositId : Option Nat) (now : Int)
    (h : st.vault.status ≠ .ACTIVE) :
    distributeRevenue st offering depositId now = .error .vaultNotActive ∧
    applyOp st (.distribute offering depositId now) = st := by
  have herr : distributeRevenue st offering depositId now =
      .error .vaultNotActive := by
    rw [distributeRevenue, if_pos h]
  exact ⟨herr, by simp only [applyOp, herr]⟩

/-- A PAUSED vault holding a VERIFIED deposit and a positive pending
balance. -/
def c10State : EscrowState :=
  { vault := { totalBalance := 100, pendingRelease := 100,
               totalDistributed := 0, creatorShare := 0, investorPool := 0,
               status := .PAUSED },
    deposits := [{ id := 0, amount := 100, status := .VERIFIED }],
    claims := [], distributions := [], wallets := [], nextDepositId := 1,
    nextClaimId := 0 }

/-- Witness for C10 on the PAUSED vault, even with a VERIFIED deposit. -/
theorem c10_witness :
    distributeRevenue c10State c1Offering (some 0) 4 =
      .error .vaultNotActive ∧
    applyOp c10State (.distribute c1Offering (some 0) 4) = c10State :=
  c10_distribute_requires_active_vault c10State c1Offering (some 0) 4
    (by decide)

end RevShare
